import Mathlib

/-!
Verification of the culture-scoring and correlation engine of the
glassdoor-culture dashboard.  The Python sources are shallowly embedded:
review texts are lists of characters, floats are modelled as exact
rationals (ℚ), fallible functions return `Option`, and the Python
`round` (banker rounding) is modelled exactly on ℚ.
-/

namespace Glassdoor

/-! ### Generic helpers -/

/-- Substring containment, the semantics of the Python `phrase in text`. -/
def hasSubstr (text pat : List Char) : Bool :=
  text.tails.any fun suff => pat.isPrefixOf suff

/-- Lower-case a text, the semantics of the Python `str.lower` on ASCII input
(the keyword lexicon is pure ASCII). -/
def lowerChars (s : String) : List Char :=
  s.data.map Char.toLower

/-- Number of lexicon entries (list elements, duplicates counted per entry)
that occur as substrings of the text; the semantics of
`sum(1 for phrase in phrases if phrase in text_lower)`. -/
def countHits (text : List Char) (phrases : List String) : ℕ :=
  phrases.countP fun p => hasSubstr text p.data

/-- Round-half-to-even on ℚ, the rounding mode of the Python builtin `round`. -/
def rhe (q : ℚ) : ℤ :=
  if q - ⌊q⌋ < 1/2 then ⌊q⌋
  else if 1/2 < q - ⌊q⌋ then ⌊q⌋ + 1
  else if ⌊q⌋ % 2 = 0 then ⌊q⌋ else ⌊q⌋ + 1

/-- the Python `round(q, d)` on exact rationals. -/
def pyRound (d : ℕ) (q : ℚ) : ℚ :=
  (rhe (q * (10 : ℚ) ^ d) : ℚ) / (10 : ℚ) ^ d

/-- Arithmetic mean of a list of rationals (`statistics.mean` / SQL `AVG`). -/
def listMean (l : List ℚ) : ℚ :=
  l.sum / l.length

/-! ### Dimension lexicon (HOFSTEDE_DIMENSIONS / MIT_BIG_9_KEYWORDS)

Transcribed verbatim from `culture_scoring.py`, including the duplicated
entries present in the source ("cooperation" twice in collaboration,
"flexible" twice in loose_control). -/

/-- The six Hofstede dimensions. -/
inductive HDim where
  | process_results | job_employee | professional_parochial
  | open_closed | tight_loose | pragmatic_normative
  deriving DecidableEq, Repr

/-- The nine MIT Big 9 dimensions. -/
inductive MDim where
  | agility | collaboration | customer_orientation | diversity
  | execution | innovation | integrity | performance | respect
  deriving DecidableEq, Repr

/-- Hofstede dimension order used by the aggregation code. -/
def hdimList : List HDim :=
  [.process_results, .job_employee, .professional_parochial,
   .open_closed, .tight_loose, .pragmatic_normative]

/-- MIT dimension order used by the aggregation code. -/
def mdimList : List MDim :=
  [.agility, .collaboration, .customer_orientation, .diversity,
   .execution, .innovation, .integrity, .performance, .respect]

/-- Pole A (first key, negative pole) keyword list per Hofstede dimension. -/
def hofPoleA : HDim → List String
  | .process_results =>
      ["procedures", "compliance", "following rules", "bureaucratic", "red tape",
       "step-by-step", "documentation", "sign-offs", "approvals required",
       "by the book", "sops", "protocols", "checklists", "audits",
       "risk-averse", "cautious", "methodical", "structured process",
       "process-driven", "process-focused", "procedural", "formal process"]
  | .job_employee =>
      ["task completion", "task-focused", "job-focused", "work-focused",
       "efficiency", "productivity", "output", "deliverables",
       "get the job done", "focus on work", "work first", "task oriented"]
  | .professional_parochial =>
      ["professional", "industry expertise", "technical skills", "specialist",
       "professional development", "career advancement", "industry knowledge",
       "professional standards", "professional ethics", "expert"]
  | .open_closed =>
      ["diverse perspectives", "external hires", "new ideas welcome",
       "learning culture", "bring in talent", "outside thinking",
       "collaborative", "cross-functional", "inclusive", "meritocratic",
       "challenge status quo", "fresh perspectives", "innovative",
       "open to change", "welcoming", "open-minded", "receptive"]
  | .tight_loose =>
      ["hierarchy", "chain of command", "formal", "structured",
       "micromanagement", "approvals", "sign-off culture", "bureaucracy",
       "rules", "policies", "standardised", "compliance-focused",
       "top-down", "command and control", "rigid", "strict",
       "hierarchical", "formal structure", "control", "oversight"]
  | .pragmatic_normative =>
      ["results-over-rules", "pragmatic", "practical", "market-driven",
       "customer-focused", "flexible", "adaptable", "realistic",
       "business-focused", "profit-driven", "bottom line", "efficiency"]

/-- Pole B (second key, positive pole) keyword list per Hofstede dimension. -/
def hofPoleB : HDim → List String
  | .process_results =>
      ["outcomes", "targets", "goals", "performance-driven", "results matter",
       "delivery", "impact", "achieving objectives", "bottom line",
       "move fast", "bias for action", "get things done", "entrepreneurial",
       "accountability", "ownership", "make it happen", "results speak",
       "results-oriented", "outcome-focused", "performance metrics", "delivering results"]
  | .job_employee =>
      ["employee wellbeing", "work-life balance", "employee satisfaction",
       "employee development", "employee growth", "caring", "supportive",
       "family-friendly", "personal development", "employee first",
       "wellbeing", "people-focused", "employee-centric", "human-centered"]
  | .professional_parochial =>
      ["company culture", "company loyalty", "company values", "company first",
       "company-focused", "internal culture", "company identity",
       "company commitment", "loyalty to company", "insider"]
  | .open_closed =>
      ["insider culture", "old boys network", "tenure matters",
       "hard to break in", "cliquey", "politics", "who you know",
       "not invented here", "resistant to change", "traditional",
       "established ways", "that\x27s how we do it", "outsiders struggle",
       "insular", "closed-minded", "resistant", "exclusive"]
  | .tight_loose =>
      ["autonomy", "empowerment", "trust", "self-directed",
       "flat structure", "flexible", "agile", "startup culture",
       "freedom", "independent", "ownership", "entrepreneurial",
       "minimal bureaucracy", "fast decisions", "bottom-up", "decentralised",
       "autonomous", "flexible", "empowered", "self-managing"]
  | .pragmatic_normative =>
      ["values-driven", "principle-adherence", "ethical", "integrity",
       "mission-driven", "purpose-driven", "values-based", "principled",
       "moral", "ethical standards", "doing the right thing", "values matter"]

/-- MIT Big 9 keyword list per dimension. -/
def mitKeywords : MDim → List String
  | .agility =>
      ["agile", "fast", "quick", "responsive", "adaptable", "flexible",
       "speed", "nimble", "rapid", "swift", "quick to adapt", "quick response",
       "ability to change", "quick decision", "fast moving", "dynamic"]
  | .collaboration =>
      ["collaborative", "teamwork", "team", "cooperation", "cross-functional",
       "working together", "team player", "collaborative culture", "cooperation",
       "communicate", "together", "partnership", "collective", "unified"]
  | .customer_orientation =>
      ["customer", "client", "customer-focused", "customer-centric", "customer first",
       "customer satisfaction", "customer needs", "customer service", "customer-oriented",
       "focus on customers", "customer-driven", "customer experience"]
  | .diversity =>
      ["diverse", "diversity", "inclusive", "inclusion", "different backgrounds",
       "varied", "multicultural", "equal opportunity", "representation",
       "different perspectives", "inclusive environment", "welcoming"]
  | .execution =>
      ["execution", "deliver", "delivery", "execute", "get things done",
       "deliver on commitments", "follow through", "accountability",
       "execution excellence", "deliver results", "execution focused"]
  | .innovation =>
      ["innovation", "innovative", "creative", "creativity", "new ideas",
       "new products", "experimental", "forward-thinking", "cutting-edge",
       "think outside the box", "breakthrough", "pioneering", "novel"]
  | .integrity =>
      ["integrity", "ethical", "honest", "honesty", "trustworthy", "trust",
       "transparent", "transparency", "authentic", "authentic culture",
       "doing the right thing", "ethical behavior", "moral"]
  | .performance =>
      ["performance", "meritocracy", "merit-based", "high performers",
       "performance-driven", "accountability", "results-oriented",
       "performance culture", "high standards", "excellence", "high bar"]
  | .respect =>
      ["respect", "respectful", "dignity", "consideration", "valued",
       "psychological safety", "safe", "supportive", "caring",
       "treat people well", "respect for people", "human dignity"]

/-! ### Review scorer (score_review_with_dictionary) -/

/-- Per-review Hofstede dimension result (`scores["hofstede"][dim]`).
The "confidence" string field of the source ("medium"/"low") is a pure
function of `score.isSome` and is not separately modelled. -/
structure HScoreEntry where
  score : Option ℚ
  evidence_count : ℕ
  deriving DecidableEq, Repr

/-- Per-review MIT dimension result (`scores["mit_big_9"][dim]`). -/
structure MScoreEntry where
  score : ℕ
  evidence_count : ℕ
  deriving DecidableEq, Repr

/-- Per-review scores for all dimensions of both frameworks. -/
structure ReviewScores where
  hofstede : HDim → HScoreEntry
  mit_big_9 : MDim → MScoreEntry

/-- Body of `score_review_with_dictionary` after the null/empty guard. -/
def scoreReviewBody (review_text : String) : ReviewScores :=
  let text_lower := lowerChars review_text
  { hofstede := fun dim =>
      let pole_a_count := countHits text_lower (hofPoleA dim)
      let pole_b_count := countHits text_lower (hofPoleB dim)
      let total_evidence := pole_a_count + pole_b_count
      { score :=
          if total_evidence = 0 then none
          else some (((pole_b_count : ℚ) - pole_a_count) / total_evidence),
        evidence_count := total_evidence }
    mit_big_9 := fun dim =>
      let count := countHits text_lower (mitKeywords dim)
      { score := if 0 < count then min 10 (count * 2) else 0,
        evidence_count := count } }

/-- Model of `score_review_with_dictionary`: returns `none` for empty input
(the Python falsy/non-string guard), otherwise dictionary scores. -/
def score_review_with_dictionary (review_text : String) : Option ReviewScores :=
  if review_text = "" then none
  else some (scoreReviewBody review_text)

/-! ### Profile aggregator (aggregate_review_scores)

The aggregation code reads generic per-review score records (which may come
from the dictionary scorer or the LLM scorer), so its input type keeps both
framework scores as nullable rationals.  The `std` field of the source
(`statistics.stdev`, an irrational square root) is not used by any claim and
is omitted from the aggregate record. -/

/-- One dimension of one review as read by `aggregate_review_scores`:
the `score` (nullable) and `evidence_count` keys. -/
structure AggDimIn where
  score : Option ℚ
  evidence_count : ℕ
  deriving DecidableEq, Repr

/-- Score record of one review as read by `aggregate_review_scores`. -/
structure AggReview where
  hofstede : HDim → AggDimIn
  mit_big_9 : MDim → AggDimIn

/-- Company-level aggregate for one dimension: mean of non-null scores,
count of non-null scores, and summed evidence. -/
structure AggEntry where
  mean : ℚ
  count : ℕ
  total_evidence : ℕ
  deriving DecidableEq, Repr

/-- Company-level aggregated profile. -/
structure Aggregated where
  hofstede : HDim → Option AggEntry
  mit_big_9 : MDim → Option AggEntry
  review_count : ℕ

/-- Shared per-dimension aggregation: keep reviews that are non-null records
with a non-null score for this dimension (`if r and r.get(..).get("score") is
not None`), then take the mean of scores and the sum of evidence counts. -/
def aggDim (review_scores_list : List (Option AggReview))
    (get : AggReview → AggDimIn) : Option AggEntry :=
  let present := review_scores_list.filterMap fun r =>
    r.bind fun rr => (get rr).score.map fun s => (s, (get rr).evidence_count)
  if present.isEmpty then none
  else some
    { mean := listMean (present.map Prod.fst),
      count := present.length,
      total_evidence := (present.map Prod.snd).sum }

/-- Model of `aggregate_review_scores`: `none` on an empty input list, otherwise the
per-dimension aggregates over both frameworks. -/
def aggregate_review_scores (review_scores_list : List (Option AggReview)) :
    Option Aggregated :=
  if review_scores_list.isEmpty then none
  else some
    { hofstede := fun dim => aggDim review_scores_list fun r => r.hofstede dim,
      mit_big_9 := fun dim => aggDim review_scores_list fun r => r.mit_big_9 dim,
      review_count := review_scores_list.length }

/-! ### Company metrics and the relative-confidence normalizer (app.py) -/

/-- Confidence tier (Low / Medium / High). -/
inductive CLevel where
  | low | medium | high
  deriving DecidableEq, Repr

/-- Per-dimension entry of a company profile as built by
`get_company_metrics`: the value, the relative `confidence_score` added later
by `calculate_relative_confidence` (`none` while the key is absent), the
confidence tier and the evidence total.  The constant confidence-0
field of the source dicts is never read and is not modelled. -/
structure DimMetric where
  value : Option ℚ
  confidence_score : Option ℚ
  confidence_level : CLevel
  total_evidence : ℕ
  deriving DecidableEq, Repr

/-- Company metrics record built by `get_company_metrics`. -/
structure CompanyMetrics where
  total_reviews : ℕ
  overall_rating : ℚ
  culture_values : ℚ
  work_life_balance : ℚ
  career_opportunities : ℚ
  compensation_benefits : ℚ
  senior_management : ℚ
  recommend_percentage : ℚ
  ceo_approval : ℚ
  hofstede : HDim → DimMetric
  mit_big_9 : MDim → DimMetric

/-- Evidence actually used for the confidence share of a dimension: the stored
`total_evidence`, except that a dimension with zero evidence but a non-null
value gets the imputed estimate `max(1, review_count // 15)`. -/
def effEvidence (total_reviews : ℕ) (d : DimMetric) : ℕ :=
  if d.total_evidence = 0 ∧ d.value ≠ none then max 1 (total_reviews / 15)
  else d.total_evidence

/-- Maximum `total_evidence` across all dimensions of both frameworks
(the first loop of `calculate_relative_confidence`). -/
def maxEvidence0 (m : CompanyMetrics) : ℕ :=
  ((hdimList.map fun d => (m.hofstede d).total_evidence) ++
   (mdimList.map fun d => (m.mit_big_9 d).total_evidence)).foldl max 0

/-- Effective max evidence after the review-count fallback: when no dimension
has evidence, `review_count * 5` is used instead. -/
def maxEvidenceEff (m : CompanyMetrics) : ℕ :=
  if maxEvidence0 m = 0 then m.total_reviews * 5 else maxEvidence0 m

/-- Confidence score assigned to one dimension record. -/
def relConfOf (total_reviews maxEv : ℕ) (dm : DimMetric) : DimMetric :=
  let c : ℚ :=
    if 0 < maxEv then pyRound 1 ((effEvidence total_reviews dm : ℚ) / maxEv * 100)
    else 0
  { dm with confidence_score := some c }

/-- Model of `calculate_relative_confidence`: rescales the evidence of every dimension to a
0-100 share of the maximum evidence of the company.  When there is no evidence at
all and no reviews either, the metrics are returned unchanged. -/
def calculate_relative_confidence (m : CompanyMetrics) : CompanyMetrics :=
  let maxEv := maxEvidenceEff m
  if maxEv = 0 then m
  else
    { m with
      hofstede := fun d => relConfOf m.total_reviews maxEv (m.hofstede d),
      mit_big_9 := fun d => relConfOf m.total_reviews maxEv (m.mit_big_9 d) }

/-! ### get_company_metrics (app.py)

The database rows are inputs of the model: the review rows of the company and the
aggregate row of the company over `review_culture_scores` (the `culture_result`
query result).  Ratings parsed out of the `review_data` JSON are modelled as
already-parsed nullable rationals; a row whose JSON fails to parse is
represented by `none` fields (the code skips it silently). -/

/-- One row of the `reviews` table, restricted to the fields
`get_company_metrics` reads. -/
structure Review where
  rating : Option ℚ
  work_life_balance_rating : Option ℚ
  culture_and_values_rating : Option ℚ
  career_opportunities_rating : Option ℚ
  compensation_and_benefits_rating : Option ℚ
  senior_management_rating : Option ℚ
  recommend_to_friend_rating : Option ℚ
  ceo_rating : Option ℚ

/-- Aggregate row of the company over `review_culture_scores`: row count,
per-dimension `AVG` (null when every addend is null) and the per-dimension
non-null counts (for MIT the SQL additionally requires `score > 0`). -/
structure CultureRow where
  score_count : ℕ
  hofVal : HDim → Option ℚ
  hofCount : HDim → ℕ
  mitVal : MDim → Option ℚ
  mitCount : MDim → ℕ

/-- Python truthiness filter used on rating columns
(`[r[c] for r in reviews if r[c]]`): drops nulls and zeros. -/
def truthyList (l : List (Option ℚ)) : List ℚ :=
  l.filterMap fun o => match o with
    | some q => if q = 0 then none else some q
    | none => none

/-- Mean rounded to 2 decimals, or 0 for an empty list
(`round(mean(xs), 2) if xs else 0`). -/
def meanOr0 (l : List ℚ) : ℚ :=
  if l.isEmpty then 0 else pyRound 2 (listMean l)

/-- Confidence tier as a step function of the evidence count, thresholds
`MIN_REVIEWS_FOR_HIGH_CONFIDENCE = 50` and `MIN_REVIEWS_FOR_MEDIUM_CONFIDENCE
= 20`. -/
def confLevel (count : ℕ) : CLevel :=
  if 50 ≤ count then .high else if 20 ≤ count then .medium else .low

/-- Placeholder dimension record
(value 0, confidence 0, level Low, evidence 0). -/
def placeholderDim : DimMetric :=
  { value := some 0, confidence_score := none,
    confidence_level := .low, total_evidence := 0 }

/-- Build one profile dimension from the aggregate row: the real entry when
the average is non-null and the count positive, the placeholder otherwise.
`prec` is the rounding precision (2 for Hofstede, 4 for MIT). -/
def buildDim (vOpt : Option ℚ) (count : ℕ) (prec : ℕ) : DimMetric :=
  match vOpt with
  | some v =>
      if 0 < count then
        { value := some (pyRound prec v), confidence_score := none,
          confidence_level := confLevel count, total_evidence := count }
      else placeholderDim
  | none => placeholderDim

/-- Hofstede profile dimension from the optional aggregate row (the body of
the first dimension loop of `get_company_metrics`). -/
def buildHofDim (culture_result : Option CultureRow) (d : HDim) : DimMetric :=
  match culture_result with
  | some c => if 0 < c.score_count then buildDim (c.hofVal d) (c.hofCount d) 2
              else placeholderDim
  | none => placeholderDim

/-- MIT profile dimension from the optional aggregate row (the body of the
second dimension loop of `get_company_metrics`). -/
def buildMitDim (culture_result : Option CultureRow) (d : MDim) : DimMetric :=
  match culture_result with
  | some c => if 0 < c.score_count then buildDim (c.mitVal d) (c.mitCount d) 4
              else placeholderDim
  | none => placeholderDim

/-- Model of `get_company_metrics`: `none` when the company has no review rows,
otherwise the aggregated profile passed through
`calculate_relative_confidence`. -/
def get_company_metrics (reviews : List Review) (culture_result : Option CultureRow) :
    Option CompanyMetrics :=
  if reviews.length = 0 then none
  else
    let recommend_ratings := truthyList (reviews.map (·.recommend_to_friend_rating))
    let hof : HDim → DimMetric := fun d => buildHofDim culture_result d
    let mit : MDim → DimMetric := fun d => buildMitDim culture_result d
    some (calculate_relative_confidence
      { total_reviews := reviews.length,
        overall_rating := meanOr0 (truthyList (reviews.map (·.rating))),
        culture_values := meanOr0 (truthyList (reviews.map (·.culture_and_values_rating))),
        work_life_balance := meanOr0 (truthyList (reviews.map (·.work_life_balance_rating))),
        career_opportunities := meanOr0 (truthyList (reviews.map (·.career_opportunities_rating))),
        compensation_benefits := meanOr0 (truthyList (reviews.map (·.compensation_and_benefits_rating))),
        senior_management := meanOr0 (truthyList (reviews.map (·.senior_management_rating))),
        recommend_percentage :=
          if recommend_ratings.isEmpty then 0
          else pyRound 1
            ((recommend_ratings.countP fun q => !(q == 0) && decide ((4:ℚ) ≤ q) : ℚ) /
              recommend_ratings.length * 100),
        ceo_approval := meanOr0 (truthyList (reviews.map (·.ceo_rating))),
        hofstede := hof,
        mit_big_9 := mit })

/-! ### Composite performance score (performance_analysis.py) -/

/-- Per-company performance metrics, restricted to the four nullable fields
`calculate_composite_score` reads. -/
structure PerfMetrics where
  roe_5y_avg : Option ℚ
  aum_cagr_5y : Option ℚ
  tsr_cagr_5y : Option ℚ
  op_margin_5y_avg : Option ℚ
  deriving DecidableEq, Repr

/-- Peer statistics as produced by `get_peer_statistics` (all eight keys are
always present, so the record is total; the `.get` defaults of the source are
the values used when a key is missing, which cannot occur here). -/
structure PeerStats where
  roe_mean : ℚ
  roe_std : ℚ
  aum_cagr_mean : ℚ
  aum_cagr_std : ℚ
  tsr_mean : ℚ
  tsr_std : ℚ
  margin_mean : ℚ
  margin_std : ℚ
  deriving DecidableEq, Repr

/-- Clip a z-score to [-2, 2] (`max(-2, min(2, z_score))`). -/
def clip2 (z : ℚ) : ℚ := max (-2) (min 2 z)

/-- One candidate component of the composite score: present (as a clipped
z-score together with its weight) only when the metric is non-null and the
peer standard deviation is positive. -/
def mkComp (v : Option ℚ) (peer_mean peer_std w : ℚ) : List (ℚ × ℚ) :=
  match v with
  | some x => if 0 < peer_std then [(clip2 ((x - peer_mean) / peer_std), w)] else []
  | none => []

/-- The components gathered by `calculate_composite_score`, in source order
with the source weights (.30 ROE, .25 AUM growth, .25 TSR, .20 margin). -/
def compositeComponents (m : PerfMetrics) (p : PeerStats) : List (ℚ × ℚ) :=
  mkComp m.roe_5y_avg p.roe_mean p.roe_std (30/100) ++
  mkComp m.aum_cagr_5y p.aum_cagr_mean p.aum_cagr_std (25/100) ++
  mkComp m.tsr_cagr_5y p.tsr_mean p.tsr_std (25/100) ++
  mkComp m.op_margin_5y_avg p.margin_mean p.margin_std (20/100)

/-- Weighted mean of the clipped z-scores of the present components, with the
weights renormalized over the present components only. -/
def weightedMeanZ (m : PerfMetrics) (p : PeerStats) : ℚ :=
  let comps := compositeComponents m p
  ((comps.map fun c => c.1 * c.2).sum) / (comps.map Prod.snd).sum

/-- Model of `calculate_composite_score`: `none` when no component is present,
otherwise `50 + 25 * weighted_z` clipped to [0, 100]. -/
def calculate_composite_score (m : PerfMetrics) (p : PeerStats) : Option ℚ :=
  let comps := compositeComponents m p
  if comps.isEmpty then none
  else
    let total_weight := (comps.map Prod.snd).sum
    if total_weight = 0 then none
    else
      let weighted_score := ((comps.map fun c => c.1 * c.2).sum) / total_weight
      some (max 0 (min 100 (50 + weighted_score * 25)))

/-! ### Correlation engine (calculate_correlation)

`scipy.stats.pearsonr` returns a correlation and a two-tailed p-value; both
are irrational in general, so the statistical kernel is abstracted as an
oracle function `List ℚ → List ℚ → ℚ × ℚ` over the x- and y-series.  It is
modelled as total: for series of length ≥ 5 `pearsonr` does not raise, so the
`try/except` of the source is dead there.  Everything surrounding the oracle
(joining, thresholding, rounding, ranking) is modelled from the source. -/

/-- The five performance metrics correlated against culture dimensions. -/
inductive PMetric where
  | roe_5y_avg | aum_cagr_5y | tsr_cagr_5y | op_margin_5y_avg | composite_score
  deriving DecidableEq, Repr

/-- Source iteration order of the performance metrics. -/
def pmetricList : List PMetric :=
  [.roe_5y_avg, .aum_cagr_5y, .tsr_cagr_5y, .op_margin_5y_avg, .composite_score]

/-- Record of one company in `culture_data`: identifier plus the nullable
normalized value per dimension of each framework. -/
structure CultureEntry where
  company : ℕ
  hofstede : HDim → Option ℚ
  mit : MDim → Option ℚ

/-- Record of one company in `performance_data`: identifier plus the nullable
value per performance metric. -/
structure PerfEntry where
  company : ℕ
  get : PMetric → Option ℚ

/-- Build `company_data` keyed by company: a later culture record for the
same company replaces the earlier one (Python dict assignment). -/
def cultureMap (culture_data : List CultureEntry) : List (ℕ × CultureEntry) :=
  culture_data.foldl
    (fun acc cd =>
      if acc.any fun p => p.1 == cd.company then
        acc.map fun p => if p.1 == cd.company then (cd.company, cd) else p
      else acc ++ [(cd.company, cd)])
    []

/-- Attach performance records to companies already present in
`company_data`; records for unknown companies are dropped. -/
def joinPerf (culture_data : List CultureEntry) (performance_data : List PerfEntry) :
    List (ℕ × CultureEntry × Option PerfEntry) :=
  performance_data.foldl
    (fun acc pe => acc.map fun e => if e.1 == pe.company then (e.1, e.2.1, some pe) else e)
    ((cultureMap culture_data).map fun p => (p.1, p.2, none))

/-- Model of `valid_companies`: the joined companies having both a culture and a
performance record, in dict order. -/
def validCompanies (culture_data : List CultureEntry) (performance_data : List PerfEntry) :
    List (CultureEntry × PerfEntry) :=
  (joinPerf culture_data performance_data).filterMap fun e => e.2.2.map fun pe => (e.2.1, pe)

/-- The (x, y) pairs for one (dimension, metric) combination: valid companies
whose culture value for the dimension and performance value for the metric
are both non-null. -/
def joinPoints (valid : List (CultureEntry × PerfEntry))
    (dimVal : CultureEntry → Option ℚ) (metric : PMetric) : List (ℚ × ℚ) :=
  valid.filterMap fun cp =>
    match dimVal cp.1, cp.2.get metric with
    | some x, some y => some (x, y)
    | _, _ => none

/-- One stored correlation result
(correlation, p_value, significant, sample_size).
`correlation` and `p_value` are the rounded stored values; `significant` is
computed from the unrounded p-value. -/
structure CorrEntry where
  correlation : ℚ
  p_value : ℚ
  significant : Bool
  sample_size : ℕ
  deriving DecidableEq, Repr

/-- The oracle standing for `scipy.stats.pearsonr`. -/
abbrev PearsonOracle := List ℚ → List ℚ → ℚ × ℚ

/-- Build the stored entry for a point set (the body under
`if len(x_vals) >= 5`). -/
def mkCorrEntry (oracle : PearsonOracle) (pts : List (ℚ × ℚ)) : CorrEntry :=
  let r := oracle (pts.map Prod.fst) (pts.map Prod.snd)
  { correlation := pyRound 3 r.1, p_value := pyRound 4 r.2,
    significant := decide (r.2 < 1/20), sample_size := pts.length }

/-- One record of the `all_correlations` working list: framework + dimension
(as a sum), metric, and the unrounded correlation and p-value. -/
structure CorrItem where
  dim : HDim ⊕ MDim
  metric : PMetric
  correlation : ℚ
  p_value : ℚ
  deriving DecidableEq, Repr

/-- The `all_correlations` list: one item per (dimension, metric) pair with
at least 5 data points, Hofstede dimensions first, in source iteration
order. -/
def allCorrelations (oracle : PearsonOracle)
    (valid : List (CultureEntry × PerfEntry)) : List CorrItem :=
  (hdimList.flatMap fun d => pmetricList.filterMap fun metric =>
    let pts := joinPoints valid (fun c => c.hofstede d) metric
    if 5 ≤ pts.length then
      let r := oracle (pts.map Prod.fst) (pts.map Prod.snd)
      some { dim := .inl d, metric := metric, correlation := r.1, p_value := r.2 }
    else none) ++
  (mdimList.flatMap fun d => pmetricList.filterMap fun metric =>
    let pts := joinPoints valid (fun c => c.mit d) metric
    if 5 ≤ pts.length then
      let r := oracle (pts.map Prod.fst) (pts.map Prod.snd)
      some { dim := .inr d, metric := metric, correlation := r.1, p_value := r.2 }
    else none)

/-- Descending-by-correlation comparison used to rank `all_correlations`. -/
def corrGE (a b : CorrItem) : Prop := b.correlation ≤ a.correlation

instance : DecidableRel corrGE := fun a b =>
  inferInstanceAs (Decidable (b.correlation ≤ a.correlation))

instance : IsTotal CorrItem corrGE := ⟨fun a b => le_total b.correlation a.correlation⟩

instance : IsTrans CorrItem corrGE :=
  ⟨fun _ _ _ h h' => le_trans h' h⟩

/-- the Python `sorted(key=correlation, reverse=True)` is a stable descending
sort; insertion sort with the non-strict descending comparison is the same
stable sort. -/
def sortedCorrs (items : List CorrItem) : List CorrItem :=
  items.insertionSort corrGE

/-- Full result of `calculate_correlation`. -/
structure CorrResults where
  hofstede : HDim → PMetric → Option CorrEntry
  mit : MDim → PMetric → Option CorrEntry
  strongest_positive : List CorrItem
  strongest_negative : List CorrItem
  sample_size : ℕ

/-- Model of `calculate_correlation`: join the two data sets, require 5 joined
companies overall, store an entry per (dimension, metric) pair with ≥ 5
points, and rank all stored pairs by correlation for the summary. -/
def calculate_correlation (oracle : PearsonOracle)
    (culture_data : List CultureEntry) (performance_data : List PerfEntry) :
    CorrResults :=
  let valid := validCompanies culture_data performance_data
  if valid.length < 5 then
    { hofstede := fun _ _ => none, mit := fun _ _ => none,
      strongest_positive := [], strongest_negative := [],
      sample_size := valid.length }
  else
    let all := allCorrelations oracle valid
    let sorted := sortedCorrs all
    { hofstede := fun d metric =>
        let pts := joinPoints valid (fun c => c.hofstede d) metric
        if 5 ≤ pts.length then some (mkCorrEntry oracle pts) else none,
      mit := fun d metric =>
        let pts := joinPoints valid (fun c => c.mit d) metric
        if 5 ≤ pts.length then some (mkCorrEntry oracle pts) else none,
      strongest_positive := if all.isEmpty then [] else sorted.take 5,
      strongest_negative := if all.isEmpty then [] else (sorted.drop (sorted.length - 5)).reverse,
      sample_size := valid.length }

/-! ### Culture alignment score (get_company_analysis, app.py) -/

/-- The Hofstede framework loop: accumulate
`correlation * (company_value - industry_value)` over the six dimensions. -/
def hofstedeAlignScore (company industry correlation : HDim → ℚ) : ℚ :=
  hdimList.foldl (fun acc d => acc + correlation d * (company d - industry d)) 0

/-- The MIT framework loop: accumulate
`correlation * (company_value - industry_value)` over the nine dimensions. -/
def mitAlignScore (company industry correlation : MDim → ℚ) : ℚ :=
  mdimList.foldl (fun acc d => acc + correlation d * (company d - industry d)) 0

/-- Model of `combined_score = (hofstede_score * 5) + mit_score`. -/
def combinedAlignScore (companyH industryH correlationH : HDim → ℚ)
    (companyM industryM correlationM : MDim → ℚ) : ℚ :=
  hofstedeAlignScore companyH industryH correlationH * 5 +
  mitAlignScore companyM industryM correlationM

/-! ### Spec-side definition for claim C1 -/

/-- Number of distinct keyword phrases of dimension `d` (either pole) that
match the text.  This follows the wording of the specification, "counting
distinct keyword phrases matched, not occurrences"; it differs from the
source counting exactly when the lexicon lists the same phrase twice. -/
def specDistinctMatchedHof (text : List Char) (d : HDim) : ℕ :=
  ((hofPoleA d ++ hofPoleB d).dedup).countP fun p => hasSubstr text p.data

/-! ### Theorems -/

/-- C1 counterexample: on the review text "flexible" the scorer reports
evidence_count 2 for the tight_loose dimension (the lexicon lists the phrase
"flexible" twice under loose_control), while only 1 distinct keyword phrase
matches, so evidence_count is not the number of distinct keyword phrases
matched. -/
theorem hofstede_distinct_count_counterexample :
    ∃ r, score_review_with_dictionary "flexible" = some r ∧
      (r.hofstede .tight_loose).evidence_count = 2 ∧
      specDistinctMatchedHof (lowerChars "flexible") .tight_loose = 1 ∧
      (2 : ℕ) ≠ 1 := by
  exact ⟨scoreReviewBody "flexible", rfl, by decide, by decide, by decide⟩

/-- Definitional unfolding of one Hofstede dimension of the scorer body. -/
lemma hofScoreBody_eq (s : String) (d : HDim) :
    (scoreReviewBody s).hofstede d =
      { score :=
          if countHits (lowerChars s) (hofPoleA d) + countHits (lowerChars s) (hofPoleB d) = 0
          then none
          else some (((countHits (lowerChars s) (hofPoleB d) : ℚ) -
                       (countHits (lowerChars s) (hofPoleA d) : ℚ)) /
                     ((countHits (lowerChars s) (hofPoleA d) +
                        countHits (lowerChars s) (hofPoleB d) : ℕ) : ℚ)),
        evidence_count :=
          countHits (lowerChars s) (hofPoleA d) + countHits (lowerChars s) (hofPoleB d) } :=
  rfl

/-- General shape of the per-review Hofstede result, used by the C1 theorem. -/
lemma hofstede_score_general (s : String) (d : HDim) (hs : s ≠ "") :
    ∃ r, score_review_with_dictionary s = some r ∧
      (r.hofstede d).evidence_count =
        countHits (lowerChars s) (hofPoleA d) + countHits (lowerChars s) (hofPoleB d) ∧
      (0 < countHits (lowerChars s) (hofPoleA d) + countHits (lowerChars s) (hofPoleB d) →
        (r.hofstede d).score =
          some (((countHits (lowerChars s) (hofPoleB d) : ℚ) -
                  (countHits (lowerChars s) (hofPoleA d) : ℚ)) /
                ((countHits (lowerChars s) (hofPoleA d) : ℚ) +
                  (countHits (lowerChars s) (hofPoleB d) : ℚ))) ∧
        ∀ q, (r.hofstede d).score = some q → -1 ≤ q ∧ q ≤ 1) ∧
      (countHits (lowerChars s) (hofPoleA d) + countHits (lowerChars s) (hofPoleB d) = 0 →
        (r.hofstede d).score = none) := by
  refine ⟨scoreReviewBody s, by simp [score_review_with_dictionary, hs], ?_, ?_, ?_⟩
  · rw [hofScoreBody_eq]
  · intro hpos
    have hne : countHits (lowerChars s) (hofPoleA d) + countHits (lowerChars s) (hofPoleB d) ≠ 0 :=
      Nat.pos_iff_ne_zero.mp hpos
    have hsc : ((scoreReviewBody s).hofstede d).score =
        some (((countHits (lowerChars s) (hofPoleB d) : ℚ) -
                (countHits (lowerChars s) (hofPoleA d) : ℚ)) /
              ((countHits (lowerChars s) (hofPoleA d) : ℚ) +
                (countHits (lowerChars s) (hofPoleB d) : ℚ))) := by
      rw [hofScoreBody_eq]
      simp only [if_neg hne]
      push_cast
      ring_nf
    refine ⟨hsc, ?_⟩
    intro q hq
    rw [hsc] at hq
    simp only [Option.some.injEq] at hq
    subst hq
    have ha0 : (0 : ℚ) ≤ (countHits (lowerChars s) (hofPoleA d) : ℚ) := Nat.cast_nonneg _
    have hb0 : (0 : ℚ) ≤ (countHits (lowerChars s) (hofPoleB d) : ℚ) := Nat.cast_nonneg _
    have hab : (0 : ℚ) < (countHits (lowerChars s) (hofPoleA d) : ℚ) +
        (countHits (lowerChars s) (hofPoleB d) : ℚ) := by exact_mod_cast hpos
    constructor
    · rw [le_div_iff₀ hab]
      linarith
    · rw [div_le_one hab]
      linarith
  · intro hzero
    rw [hofScoreBody_eq]
    simp only [if_pos hzero]

/-- C1 (amended): for every non-empty review text and Hofstede dimension,
with pole counts taken per lexicon entry (a phrase listed twice counts
twice), evidence_count = pole_a_count + pole_b_count; when some pole keyword
matches, the score is (b - a) / (a + b), a value in [-1, 1]; when none
matches the score is null.  In particular the text "bureaucratic red tape"
(matching exactly the two process_oriented phrases "bureaucratic" and
"red tape") yields process_results score -1 with evidence_count 2. -/
theorem hofstede_review_score_spec :
    (∀ (s : String) (d : HDim), s ≠ "" →
      ∃ r, score_review_with_dictionary s = some r ∧
        (r.hofstede d).evidence_count =
          countHits (lowerChars s) (hofPoleA d) + countHits (lowerChars s) (hofPoleB d) ∧
        (0 < countHits (lowerChars s) (hofPoleA d) + countHits (lowerChars s) (hofPoleB d) →
          (r.hofstede d).score =
            some (((countHits (lowerChars s) (hofPoleB d) : ℚ) -
                    (countHits (lowerChars s) (hofPoleA d) : ℚ)) /
                  ((countHits (lowerChars s) (hofPoleA d) : ℚ) +
                    (countHits (lowerChars s) (hofPoleB d) : ℚ))) ∧
          ∀ q, (r.hofstede d).score = some q → -1 ≤ q ∧ q ≤ 1) ∧
        (countHits (lowerChars s) (hofPoleA d) + countHits (lowerChars s) (hofPoleB d) = 0 →
          (r.hofstede d).score = none)) ∧
    (∃ r, score_review_with_dictionary "bureaucratic red tape" = some r ∧
      (r.hofstede .process_results).score = some (-1) ∧
      (r.hofstede .process_results).evidence_count = 2) := by
  refine ⟨hofstede_score_general, ?_⟩
  obtain ⟨r, hr, hev, hpos, -⟩ :=
    hofstede_score_general "bureaucratic red tape" .process_results (by decide)
  have ha : countHits (lowerChars "bureaucratic red tape") (hofPoleA .process_results) = 2 := by
    decide
  have hb : countHits (lowerChars "bureaucratic red tape") (hofPoleB .process_results) = 0 := by
    decide
  obtain ⟨hsc, -⟩ := hpos (by rw [ha, hb]; norm_num)
  refine ⟨r, hr, ?_, ?_⟩
  · rw [hsc, ha, hb]
    norm_num
  · rw [hev, ha, hb]

/-- Witness for the amended C1 theorem on the concrete text "audits". -/
theorem hofstede_review_score_spec_witness :
    ∃ r, score_review_with_dictionary "audits" = some r ∧
      (r.hofstede .process_results).score = some (-1) ∧
      (r.hofstede .process_results).evidence_count = 1 := by
  obtain ⟨r, hr, hev, hpos, -⟩ :=
    hofstede_review_score_spec.1 "audits" .process_results (by decide)
  have ha : countHits (lowerChars "audits") (hofPoleA .process_results) = 1 := by decide
  have hb : countHits (lowerChars "audits") (hofPoleB .process_results) = 0 := by decide
  obtain ⟨hsc, -⟩ := hpos (by rw [ha, hb]; norm_num)
  refine ⟨r, hr, ?_, ?_⟩
  · rw [hsc, ha, hb]
    norm_num
  · rw [hev, ha, hb]

/-- C2 counterexample: for the review text
"very agile, very agile, collaborative teamwork" the MIT collaboration
score is 6 (the distinct keywords "collaborative", "teamwork" and "team"
all match, "team" as a substring of "teamwork"), not 4 as claimed. -/
theorem mit_scenario_counterexample :
    ∃ r, score_review_with_dictionary "very agile, very agile, collaborative teamwork" = some r ∧
      (r.mit_big_9 .collaboration).score = 6 ∧
      (6 : ℕ) ≠ 4 := by
  exact ⟨scoreReviewBody "very agile, very agile, collaborative teamwork", rfl,
    by decide, by decide⟩

/-- C2 (amended): for every non-empty review text, each MIT dimension scores
min(10, count × 2) with evidence_count = count, where count is the number of
matching lexicon entries; on the text
"very agile, very agile, collaborative teamwork" agility has evidence 1 and
score 2 (repetition of "agile" in the text not double-counted), and
collaboration has evidence 3 ("collaborative", "teamwork", and "team" as a
substring of "teamwork") with score 6. -/
theorem mit_review_score_spec :
    (∀ (s : String) (d : MDim), s ≠ "" →
      ∃ r, score_review_with_dictionary s = some r ∧
        (r.mit_big_9 d).evidence_count = countHits (lowerChars s) (mitKeywords d) ∧
        (r.mit_big_9 d).score = min 10 (countHits (lowerChars s) (mitKeywords d) * 2)) ∧
    (∃ r, score_review_with_dictionary "very agile, very agile, collaborative teamwork" = some r ∧
      (r.mit_big_9 .agility).evidence_count = 1 ∧ (r.mit_big_9 .agility).score = 2 ∧
      (r.mit_big_9 .collaboration).evidence_count = 3 ∧
      (r.mit_big_9 .collaboration).score = 6) := by
  constructor
  · intro s d hs
    refine ⟨scoreReviewBody s, by simp [score_review_with_dictionary, hs], by simp [scoreReviewBody], ?_⟩
    simp only [scoreReviewBody]
    rcases Nat.eq_zero_or_pos (countHits (lowerChars s) (mitKeywords d)) with h | h
    · rw [h]; simp
    · rw [if_pos h]
  · exact ⟨scoreReviewBody "very agile, very agile, collaborative teamwork", rfl,
      by decide, by decide, by decide, by decide⟩

/-- Witness for the amended C2 theorem on the concrete text "nimble". -/
theorem mit_review_score_spec_witness :
    ∃ r, score_review_with_dictionary "nimble" = some r ∧
      (r.mit_big_9 .agility).evidence_count = countHits (lowerChars "nimble") (mitKeywords .agility) ∧
      (r.mit_big_9 .agility).score = min 10 (countHits (lowerChars "nimble") (mitKeywords .agility) * 2) :=
  mit_review_score_spec.1 "nimble" .agility (by decide)

/-- C10 (confirmed): for every non-empty review text, every MIT per-review
score is an even value in {0, 2, 4, 6, 8, 10}, and it is 0 exactly when the
evidence count of that dimension is 0. -/
theorem mit_score_even_invariant (s : String) (hs : s ≠ "") :
    ∃ r, score_review_with_dictionary s = some r ∧ ∀ d : MDim,
      (∃ k, k ≤ 5 ∧ (r.mit_big_9 d).score = 2 * k) ∧
      ((r.mit_big_9 d).score = 0 ↔ (r.mit_big_9 d).evidence_count = 0) := by
  refine ⟨scoreReviewBody s, by simp [score_review_with_dictionary, hs], ?_⟩
  intro d
  simp only [scoreReviewBody]
  constructor
  · refine ⟨min 5 (countHits (lowerChars s) (mitKeywords d)), by omega, ?_⟩
    split <;> omega
  · constructor
    · intro h
      by_contra hne
      have : 0 < countHits (lowerChars s) (mitKeywords d) := Nat.pos_of_ne_zero hne
      rw [if_pos this] at h
      omega
    · intro h
      rw [h]
      simp

/-- Witness for C10 on the concrete text "honest and fair". -/
theorem mit_score_even_invariant_witness :
    ∃ r, score_review_with_dictionary "honest and fair" = some r ∧ ∀ d : MDim,
      (∃ k, k ≤ 5 ∧ (r.mit_big_9 d).score = 2 * k) ∧
      ((r.mit_big_9 d).score = 0 ↔ (r.mit_big_9 d).evidence_count = 0) :=
  mit_score_even_invariant "honest and fair" (by decide)

/-- Aggregating `n` copies of the same review record over one dimension
yields mean `v`, count `n` and total evidence `n * e`. -/
lemma aggDim_replicate (n : ℕ) (hn : 1 ≤ n) (r : AggReview) (get : AggReview → AggDimIn)
    (v : ℚ) (e : ℕ) (h : get r = ⟨some v, e⟩) :
    aggDim (List.replicate n (some r)) get = some ⟨v, n, n * e⟩ := by
  have hf : (fun ro : Option AggReview =>
      ro.bind fun rr => ((get rr).score).map fun s => (s, (get rr).evidence_count))
      (some r) = some (v, e) := by
    simp [h]
  have hrep : (List.replicate n (some r)).filterMap (fun ro : Option AggReview =>
      ro.bind fun rr => ((get rr).score).map fun s => (s, (get rr).evidence_count)) =
      List.replicate n (v, e) :=
    List.filterMap_replicate_of_some hf
  have hnz : (n : ℚ) ≠ 0 := by
    exact_mod_cast Nat.pos_iff_ne_zero.mp hn
  have hne : (List.replicate n ((v : ℚ), e)).isEmpty = false := by
    simp [List.isEmpty_eq_false, List.replicate_eq_nil_iff]
    omega
  simp only [aggDim, hrep, hne, Bool.false_eq_true, if_false, Option.some.injEq,
    AggEntry.mk.injEq]
  refine ⟨?_, by simp, ?_⟩
  · simp only [List.map_replicate, listMean, List.sum_replicate, List.length_replicate,
      nsmul_eq_mul]
    exact mul_div_cancel_left₀ v hnz
  · simp only [List.map_replicate, List.sum_replicate, smul_eq_mul]

/-- C9 (confirmed): aggregating n ≥ 1 identical review scores that assign
score v and evidence e to a dimension yields an aggregate whose mean is v and
whose total_evidence is n × e, for both frameworks. -/
theorem aggregate_constant_roundtrip (n : ℕ) (v : ℚ) (e : ℕ) (r : AggReview)
    (dh : HDim) (dm : MDim) (hn : 1 ≤ n) :
    (r.hofstede dh = ⟨some v, e⟩ →
      ∃ agg, aggregate_review_scores (List.replicate n (some r)) = some agg ∧
        agg.hofstede dh = some ⟨v, n, n * e⟩) ∧
    (r.mit_big_9 dm = ⟨some v, e⟩ →
      ∃ agg, aggregate_review_scores (List.replicate n (some r)) = some agg ∧
        agg.mit_big_9 dm = some ⟨v, n, n * e⟩) := by
  have hne : (List.replicate n (some r)).isEmpty = false := by
    simp [List.isEmpty_eq_false, List.replicate_eq_nil_iff]
    omega
  have hagg : aggregate_review_scores (List.replicate n (some r)) =
      some { hofstede := fun dim => aggDim (List.replicate n (some r)) fun x => x.hofstede dim,
             mit_big_9 := fun dim => aggDim (List.replicate n (some r)) fun x => x.mit_big_9 dim,
             review_count := (List.replicate n (some r)).length } := by
    unfold aggregate_review_scores
    rw [hne]
    simp
  constructor
  · intro h
    exact ⟨_, hagg, aggDim_replicate n hn r _ v e h⟩
  · intro h
    exact ⟨_, hagg, aggDim_replicate n hn r _ v e h⟩

/-- Concrete review record used by the C9 witness: every dimension of both
frameworks scores 3/4 with evidence 2. -/
def aggReviewEx : AggReview :=
  { hofstede := fun _ => ⟨some (3/4), 2⟩, mit_big_9 := fun _ => ⟨some (3/4), 2⟩ }

/-- Witness for C9 with n = 2 identical reviews. -/
theorem aggregate_constant_roundtrip_witness :
    ∃ agg, aggregate_review_scores (List.replicate 2 (some aggReviewEx)) = some agg ∧
      agg.hofstede .process_results = some ⟨3/4, 2, 2 * 2⟩ :=
  (aggregate_constant_roundtrip 2 (3/4) 2 aggReviewEx .process_results .agility
    (by norm_num)).1 rfl

/-- Every component of the composite score carries one of the four positive
source weights and a clipped z-score. -/
lemma mem_mkComp {c : ℚ × ℚ} {v : Option ℚ} {peer_mean peer_std w : ℚ}
    (h : c ∈ mkComp v peer_mean peer_std w) : c.2 = w ∧ ∃ z, c.1 = clip2 z := by
  cases v with
  | none => simp [mkComp] at h
  | some x =>
      simp only [mkComp] at h
      split at h
      · simp only [List.mem_singleton] at h
        subst h
        exact ⟨rfl, _, rfl⟩
      · simp at h

/-- All weights occurring in the component list are positive. -/
lemma composite_weights_pos (m : PerfMetrics) (p : PeerStats) :
    ∀ c ∈ compositeComponents m p, (0 : ℚ) < c.2 := by
  intro c hc
  simp only [compositeComponents, List.mem_append] at hc
  rcases hc with ((h | h) | h) | h <;>
    · rw [(mem_mkComp h).1]
      norm_num

/-- C3 (confirmed): the composite performance score is null exactly when no
component is present, and otherwise equals 50 + 25 × (weighted mean of the
clipped z-scores of the present components, weights renormalized over the
present components), clipped to [0, 100]; in particular every non-null value
lies in [0, 100]. -/
theorem composite_score_spec (m : PerfMetrics) (p : PeerStats) :
    (calculate_composite_score m p = none ↔ compositeComponents m p = []) ∧
    (∀ x, calculate_composite_score m p = some x →
      x = max 0 (min 100 (50 + 25 * weightedMeanZ m p)) ∧ 0 ≤ x ∧ x ≤ 100) := by
  by_cases hc : compositeComponents m p = []
  · constructor
    · simp [calculate_composite_score, hc]
    · intro x hx
      simp [calculate_composite_score, hc] at hx
  · have htw : 0 < ((compositeComponents m p).map Prod.snd).sum := by
      refine List.sum_pos _ ?_ ?_
      · intro a ha
        obtain ⟨c, hcm, rfl⟩ := List.mem_map.mp ha
        exact composite_weights_pos m p c hcm
      · simpa using hc
    have hne : (compositeComponents m p).isEmpty = false := by
      simpa using hc
    constructor
    · simp only [calculate_composite_score, hne, Bool.false_eq_true, if_false,
        if_neg (ne_of_gt htw)]
      simp only [reduceCtorEq, false_iff]
      exact hc
    · intro x hx
      simp only [calculate_composite_score, hne, Bool.false_eq_true, if_false,
        if_neg (ne_of_gt htw), Option.some.injEq] at hx
      subst hx
      refine ⟨?_, le_max_left _ _, max_le (by norm_num) (min_le_left _ _)⟩
      unfold weightedMeanZ
      congr 2
      ring

/-- Concrete metrics for the C3 witness: only ROE present, equal to the peer
mean, so the single z-score is 0 and the composite score is 50. -/
def perfMetricsEx : PerfMetrics :=
  { roe_5y_avg := some 15, aum_cagr_5y := none, tsr_cagr_5y := none, op_margin_5y_avg := none }

/-- Concrete peer statistics for the C3 witness. -/
def peerStatsEx : PeerStats :=
  { roe_mean := 15, roe_std := 5, aum_cagr_mean := 8/100, aum_cagr_std := 5/100,
    tsr_mean := 10, tsr_std := 15, margin_mean := 30/100, margin_std := 10/100 }

/-- Witness for C3: a present-ROE-only record scores exactly 50. -/
theorem composite_score_spec_witness :
    calculate_composite_score perfMetricsEx peerStatsEx = some 50 ∧
    (50 : ℚ) = max 0 (min 100 (50 + 25 * weightedMeanZ perfMetricsEx peerStatsEx)) ∧
    (0 : ℚ) ≤ 50 ∧ (50 : ℚ) ≤ 100 := by
  have hs : calculate_composite_score perfMetricsEx peerStatsEx = some 50 := by
    have h0 : clip2 ((15 - 15) / 5) = 0 := by
      simp [clip2]
    simp only [calculate_composite_score, compositeComponents, perfMetricsEx, peerStatsEx,
      mkComp, h0]
    norm_num [listMean]
  exact ⟨hs, ((composite_score_spec perfMetricsEx peerStatsEx).2 50 hs).1,
    ((composite_score_spec perfMetricsEx peerStatsEx).2 50 hs).2⟩

/-! ### Bounds for banker rounding -/

/-- Monotone upper bound for round-half-to-even against an integer bound. -/
lemma rhe_le {q : ℚ} {B : ℤ} (h : q ≤ B) : rhe q ≤ B := by
  have hfl : ⌊q⌋ ≤ B := by
    have h1 := Int.floor_mono h
    rwa [Int.floor_intCast] at h1
  have hstep : ¬ q - ⌊q⌋ < 1/2 → ⌊q⌋ + 1 ≤ B := by
    intro h2
    have h3 : (1 : ℚ)/2 ≤ q - ⌊q⌋ := not_lt.mp h2
    have h4 : (⌊q⌋ : ℚ) < (B : ℚ) := by linarith
    have h5 : ⌊q⌋ < B := by exact_mod_cast h4
    omega
  unfold rhe
  split
  · exact hfl
  · next h2 =>
      split
      · exact hstep h2
      · split
        · exact hfl
        · exact hstep h2

/-- Round-half-to-even of a nonnegative rational is nonnegative. -/
lemma rhe_nonneg {q : ℚ} (h : 0 ≤ q) : 0 ≤ rhe q := by
  have hfl : 0 ≤ ⌊q⌋ := Int.floor_nonneg.mpr h
  unfold rhe
  split
  · exact hfl
  · split
    · omega
    · split
      · exact hfl
      · omega

/-- The Python round is nonnegative on nonnegative input. -/
lemma pyRound_nonneg {d : ℕ} {q : ℚ} (h : 0 ≤ q) : 0 ≤ pyRound d q := by
  have hp : (0 : ℚ) < (10 : ℚ) ^ d := by positivity
  have h1 : 0 ≤ q * (10 : ℚ) ^ d := mul_nonneg h hp.le
  have h2 : (0 : ℚ) ≤ (rhe (q * (10 : ℚ) ^ d) : ℚ) := by
    exact_mod_cast rhe_nonneg h1
  exact div_nonneg h2 hp.le

/-- The Python round respects integer upper bounds. -/
lemma pyRound_le {d : ℕ} {q : ℚ} {B : ℤ} (h : q ≤ B) : pyRound d q ≤ B := by
  have hp : (0 : ℚ) < (10 : ℚ) ^ d := by positivity
  have h1 : q * (10 : ℚ) ^ d ≤ ((B * 10 ^ d : ℤ) : ℚ) := by
    push_cast
    exact mul_le_mul_of_nonneg_right h hp.le
  have h2 : rhe (q * (10 : ℚ) ^ d) ≤ B * 10 ^ d := rhe_le h1
  unfold pyRound
  rw [div_le_iff₀ hp]
  calc ((rhe (q * (10 : ℚ) ^ d)) : ℚ) ≤ ((B * 10 ^ d : ℤ) : ℚ) := by exact_mod_cast h2
    _ = (B : ℚ) * (10 : ℚ) ^ d := by push_cast; ring

/-! ### Relative-confidence lemmas -/

/-- The initial accumulator never exceeds a max-fold. -/
lemma init_le_foldl_max (l : List ℕ) (init : ℕ) : init ≤ l.foldl max init := by
  induction l generalizing init with
  | nil => simp
  | cons b t ih => exact le_trans (le_max_left init b) (ih (max init b))

/-- Every member of a list is bounded by the max-fold. -/
lemma le_foldl_max {l : List ℕ} {a : ℕ} (init : ℕ) (h : a ∈ l) : a ≤ l.foldl max init := by
  induction l generalizing init with
  | nil => cases h
  | cons b t ih =>
      rcases List.mem_cons.mp h with rfl | h'
      · exact le_trans (le_max_right init a) (init_le_foldl_max t (max init a))
      · exact ih _ h'

/-- Every Hofstede dimension evidence is bounded by the company maximum. -/
lemma hof_evidence_le_max (m : CompanyMetrics) (d : HDim) :
    (m.hofstede d).total_evidence ≤ maxEvidence0 m := by
  apply le_foldl_max
  have hd : d ∈ hdimList := by cases d <;> simp [hdimList]
  exact List.mem_append.mpr (Or.inl (List.mem_map.mpr ⟨d, hd, rfl⟩))

/-- Every MIT dimension evidence is bounded by the company maximum. -/
lemma mit_evidence_le_max (m : CompanyMetrics) (d : MDim) :
    (m.mit_big_9 d).total_evidence ≤ maxEvidence0 m := by
  apply le_foldl_max
  have hd : d ∈ mdimList := by cases d <;> simp [mdimList]
  exact List.mem_append.mpr (Or.inr (List.mem_map.mpr ⟨d, hd, rfl⟩))

/-- The relative-confidence pass only sets confidence_score; value, evidence
and confidence tier of a Hofstede dimension are unchanged. -/
lemma relconf_preserves_hof (m : CompanyMetrics) (d : HDim) :
    ((calculate_relative_confidence m).hofstede d).value = (m.hofstede d).value ∧
    ((calculate_relative_confidence m).hofstede d).total_evidence =
      (m.hofstede d).total_evidence ∧
    ((calculate_relative_confidence m).hofstede d).confidence_level =
      (m.hofstede d).confidence_level := by
  unfold calculate_relative_confidence
  dsimp only
  split
  · exact ⟨rfl, rfl, rfl⟩
  · exact ⟨rfl, rfl, rfl⟩

/-- The relative-confidence pass only sets confidence_score; value, evidence
and confidence tier of an MIT dimension are unchanged. -/
lemma relconf_preserves_mit (m : CompanyMetrics) (d : MDim) :
    ((calculate_relative_confidence m).mit_big_9 d).value = (m.mit_big_9 d).value ∧
    ((calculate_relative_confidence m).mit_big_9 d).total_evidence =
      (m.mit_big_9 d).total_evidence ∧
    ((calculate_relative_confidence m).mit_big_9 d).confidence_level =
      (m.mit_big_9 d).confidence_level := by
  unfold calculate_relative_confidence
  dsimp only
  split
  · exact ⟨rfl, rfl, rfl⟩
  · exact ⟨rfl, rfl, rfl⟩

/-- Confidence score stored for a Hofstede dimension when any evidence basis
exists. -/
lemma relconf_score_hof (m : CompanyMetrics) (d : HDim) (hmax : maxEvidenceEff m ≠ 0) :
    ((calculate_relative_confidence m).hofstede d).confidence_score =
      some (pyRound 1 ((effEvidence m.total_reviews (m.hofstede d) : ℚ) /
        (maxEvidenceEff m : ℚ) * 100)) := by
  unfold calculate_relative_confidence
  dsimp only
  rw [if_neg hmax]
  show (relConfOf m.total_reviews (maxEvidenceEff m) (m.hofstede d)).confidence_score = _
  unfold relConfOf
  rw [if_pos (Nat.pos_of_ne_zero hmax)]

/-- Confidence score stored for an MIT dimension when any evidence basis
exists. -/
lemma relconf_score_mit (m : CompanyMetrics) (d : MDim) (hmax : maxEvidenceEff m ≠ 0) :
    ((calculate_relative_confidence m).mit_big_9 d).confidence_score =
      some (pyRound 1 ((effEvidence m.total_reviews (m.mit_big_9 d) : ℚ) /
        (maxEvidenceEff m : ℚ) * 100)) := by
  unfold calculate_relative_confidence
  dsimp only
  rw [if_neg hmax]
  show (relConfOf m.total_reviews (maxEvidenceEff m) (m.mit_big_9 d)).confidence_score = _
  unfold relConfOf
  rw [if_pos (Nat.pos_of_ne_zero hmax)]

/-- Concrete metrics for the C5 counterexample and witness: 150 reviews, one
Hofstede dimension with evidence 1, a second with a non-null value but zero
recorded evidence (triggering the imputation), everything else empty. -/
def cmEx : CompanyMetrics :=
  { total_reviews := 150, overall_rating := 0, culture_values := 0, work_life_balance := 0,
    career_opportunities := 0, compensation_benefits := 0, senior_management := 0,
    recommend_percentage := 0, ceo_approval := 0,
    hofstede := fun d =>
      if d = .process_results then ⟨some 1, none, .low, 1⟩
      else if d = .job_employee then ⟨some (1/5), none, .low, 0⟩
      else ⟨none, none, .low, 0⟩,
    mit_big_9 := fun _ => ⟨none, none, .low, 0⟩ }

/-- C5 counterexample: with max_evidence 1 and 150 reviews, the imputed
evidence max(1, 150 // 15) = 10 of the zero-evidence dimension job_employee
yields confidence_score 1000, which is outside [0, 100] (and differs from
round(100 × 0 / 1, 1) = 0 computed from the stored evidence). -/
theorem relative_confidence_counterexample :
    ((calculate_relative_confidence cmEx).hofstede .job_employee).confidence_score =
      some 1000 ∧ ¬ ((1000 : ℚ) ≤ 100) := by
  constructor
  · rw [relconf_score_hof cmEx .job_employee (by decide)]
    have he : effEvidence cmEx.total_reviews (cmEx.hofstede .job_employee) = 10 := by decide
    have hm : maxEvidenceEff cmEx = 1 := by decide
    rw [he, hm]
    norm_num [pyRound, rhe]
  · norm_num

/-- Share-of-max rounding stays within [0, 100] when the share is at most
one. -/
lemma pyRound_share_bounds (M e : ℕ) (hmax : 0 < M) (he : e ≤ M) :
    0 ≤ pyRound 1 (100 * (e : ℚ) / (M : ℚ)) ∧
    pyRound 1 (100 * (e : ℚ) / (M : ℚ)) ≤ 100 := by
  have hm0 : (0 : ℚ) < (M : ℚ) := by exact_mod_cast hmax
  have he2 : (e : ℚ) ≤ (M : ℚ) := by exact_mod_cast he
  have h100e : (0 : ℚ) ≤ 100 * (e : ℚ) := by positivity
  have harg0 : 0 ≤ 100 * (e : ℚ) / (M : ℚ) := div_nonneg h100e hm0.le
  have harg100 : 100 * (e : ℚ) / (M : ℚ) ≤ ((100 : ℤ) : ℚ) := by
    rw [div_le_iff₀ hm0]
    calc (100 : ℚ) * e ≤ 100 * (M : ℚ) :=
          mul_le_mul_of_nonneg_left he2 (by norm_num)
      _ = ((100 : ℤ) : ℚ) * (M : ℚ) := by norm_num
  refine ⟨pyRound_nonneg harg0, ?_⟩
  exact_mod_cast pyRound_le harg100

/-- Commuted form of the confidence share. -/
lemma share_comm (M e : ℕ) :
    (e : ℚ) / (M : ℚ) * 100 = 100 * (e : ℚ) / (M : ℚ) := by
  ring

/-- A dimension with positive stored evidence is not imputed. -/
lemma effEvidence_of_pos (rc : ℕ) (dmr : DimMetric) (hpos : 0 < dmr.total_evidence) :
    effEvidence rc dmr = dmr.total_evidence := by
  unfold effEvidence
  rw [if_neg]
  intro hcon
  omega

/-- C5 (amended): whenever the company has any evidence basis (some dimension
with evidence, or reviews for the fallback), every dimension of both
frameworks receives confidence_score = round(100 x evidence / max_evidence,
1), where evidence is the stored total_evidence or, for a dimension with a
non-null value and zero stored evidence, the imputed max(1, review_count //
15); the score lies in [0, 100] whenever that evidence does not exceed
max_evidence -- in particular for every dimension with positive stored
evidence -- but imputed evidence may exceed max_evidence and push the score
above 100. -/
theorem relative_confidence_spec (m : CompanyMetrics) (hmax : 0 < maxEvidenceEff m) :
    (∀ d : HDim,
      ((calculate_relative_confidence m).hofstede d).confidence_score =
        some (pyRound 1
          (100 * (effEvidence m.total_reviews (m.hofstede d) : ℚ) / (maxEvidenceEff m : ℚ))) ∧
      (effEvidence m.total_reviews (m.hofstede d) ≤ maxEvidenceEff m →
        0 ≤ pyRound 1
            (100 * (effEvidence m.total_reviews (m.hofstede d) : ℚ) / (maxEvidenceEff m : ℚ)) ∧
        pyRound 1
            (100 * (effEvidence m.total_reviews (m.hofstede d) : ℚ) / (maxEvidenceEff m : ℚ))
          ≤ 100) ∧
      (0 < (m.hofstede d).total_evidence →
        effEvidence m.total_reviews (m.hofstede d) ≤ maxEvidenceEff m)) ∧
    (∀ d : MDim,
      ((calculate_relative_confidence m).mit_big_9 d).confidence_score =
        some (pyRound 1
          (100 * (effEvidence m.total_reviews (m.mit_big_9 d) : ℚ) / (maxEvidenceEff m : ℚ))) ∧
      (effEvidence m.total_reviews (m.mit_big_9 d) ≤ maxEvidenceEff m →
        0 ≤ pyRound 1
            (100 * (effEvidence m.total_reviews (m.mit_big_9 d) : ℚ) / (maxEvidenceEff m : ℚ)) ∧
        pyRound 1
            (100 * (effEvidence m.total_reviews (m.mit_big_9 d) : ℚ) / (maxEvidenceEff m : ℚ))
          ≤ 100) ∧
      (0 < (m.mit_big_9 d).total_evidence →
        effEvidence m.total_reviews (m.mit_big_9 d) ≤ maxEvidenceEff m)) := by
  have hne : maxEvidenceEff m ≠ 0 := Nat.pos_iff_ne_zero.mp hmax
  constructor
  · intro d
    refine ⟨?_, fun h => pyRound_share_bounds _ _ hmax h, ?_⟩
    · rw [relconf_score_hof m d hne, share_comm]
    · intro hpos
      rw [effEvidence_of_pos _ _ hpos]
      have h1 := hof_evidence_le_max m d
      unfold maxEvidenceEff
      rw [if_neg]
      · exact h1
      · omega
  · intro d
    refine ⟨?_, fun h => pyRound_share_bounds _ _ hmax h, ?_⟩
    · rw [relconf_score_mit m d hne, share_comm]
    · intro hpos
      rw [effEvidence_of_pos _ _ hpos]
      have h1 := mit_evidence_le_max m d
      unfold maxEvidenceEff
      rw [if_neg]
      · exact h1
      · omega

/-- Witness for the amended C5 theorem at the concrete metrics. -/
theorem relative_confidence_spec_witness :
    ((calculate_relative_confidence cmEx).hofstede .process_results).confidence_score =
      some (pyRound 1
        (100 * (effEvidence cmEx.total_reviews (cmEx.hofstede .process_results) : ℚ) /
          (maxEvidenceEff cmEx : ℚ))) :=
  ((relative_confidence_spec cmEx (by decide)).1 .process_results).1

/-! ### Company-profile synthesis (C7) -/

/-- Per-dimension non-null count as read from the optional aggregate row. -/
def hofCountOf : Option CultureRow → HDim → ℕ
  | none, _ => 0
  | some c, d => c.hofCount d

/-- Per-dimension positive count as read from the optional aggregate row. -/
def mitCountOf : Option CultureRow → MDim → ℕ
  | none, _ => 0
  | some c, d => c.mitCount d

/-- A dimension with zero count builds the placeholder record. -/
lemma buildDim_count_zero (v : Option ℚ) (prec : ℕ) :
    buildDim v 0 prec = placeholderDim := by
  cases v <;> simp [buildDim]

/-- A Hofstede dimension whose aggregate count is zero is the placeholder. -/
lemma buildHofDim_zero (cr : Option CultureRow) (d : HDim) (hc : hofCountOf cr d = 0) :
    buildHofDim cr d = placeholderDim := by
  cases cr with
  | none => rfl
  | some c =>
      simp only [hofCountOf] at hc
      simp only [buildHofDim]
      rw [hc, buildDim_count_zero]
      split <;> rfl

/-- An MIT dimension whose aggregate count is zero is the placeholder. -/
lemma buildMitDim_zero (cr : Option CultureRow) (d : MDim) (hc : mitCountOf cr d = 0) :
    buildMitDim cr d = placeholderDim := by
  cases cr with
  | none => rfl
  | some c =>
      simp only [mitCountOf] at hc
      simp only [buildMitDim]
      rw [hc, buildDim_count_zero]
      split <;> rfl

/-- C7 counterexample: a company with zero review rows yields null (the code
returns None before building any profile), so aggregation does return null
for some company. -/
theorem company_metrics_none_counterexample :
    get_company_metrics [] none = none := rfl

/-- C7 (amended): for every company with at least one review row the
aggregation never returns null; when the aggregate row records zero scored
hits for every dimension of a framework (in particular for a company with
zero scored reviews or zero dimension hits), every dimension of that
framework is synthesized with value 0, total_evidence 0 and confidence_level
Low.  A company with no review rows at all yields null instead. -/
theorem company_profile_never_null (reviews : List Review) (cr : Option CultureRow)
    (h : 0 < reviews.length) :
    ∃ m, get_company_metrics reviews cr = some m ∧
      ((∀ d0 : HDim, hofCountOf cr d0 = 0) → ∀ d : HDim,
        (m.hofstede d).value = some 0 ∧ (m.hofstede d).total_evidence = 0 ∧
        (m.hofstede d).confidence_level = .low) ∧
      ((∀ d0 : MDim, mitCountOf cr d0 = 0) → ∀ d : MDim,
        (m.mit_big_9 d).value = some 0 ∧ (m.mit_big_9 d).total_evidence = 0 ∧
        (m.mit_big_9 d).confidence_level = .low) := by
  have hne : reviews.length ≠ 0 := Nat.pos_iff_ne_zero.mp h
  unfold get_company_metrics
  rw [if_neg hne]
  refine ⟨_, rfl, ?_, ?_⟩
  · intro hc d
    obtain ⟨hv, he, hl⟩ := relconf_preserves_hof _ d
    rw [hv, he, hl]
    dsimp only
    rw [buildHofDim_zero cr d (hc d)]
    exact ⟨rfl, rfl, rfl⟩
  · intro hc d
    obtain ⟨hv, he, hl⟩ := relconf_preserves_mit _ d
    rw [hv, he, hl]
    dsimp only
    rw [buildMitDim_zero cr d (hc d)]
    exact ⟨rfl, rfl, rfl⟩

/-- Concrete all-null review row used by the C7 witness. -/
def reviewEx : Review :=
  { rating := none, work_life_balance_rating := none, culture_and_values_rating := none,
    career_opportunities_rating := none, compensation_and_benefits_rating := none,
    senior_management_rating := none, recommend_to_friend_rating := none, ceo_rating := none }

/-- Witness for the amended C7 theorem: one review row and no aggregate row
produce a non-null all-placeholder profile. -/
theorem company_profile_never_null_witness :
    ∃ m, get_company_metrics [reviewEx] none = some m ∧
      (m.hofstede .process_results).value = some 0 ∧
      (m.hofstede .process_results).total_evidence = 0 ∧
      (m.hofstede .process_results).confidence_level = .low ∧
      (m.mit_big_9 .agility).value = some 0 := by
  obtain ⟨m, hm, hhof, hmit⟩ :=
    company_profile_never_null [reviewEx] none (by norm_num)
  obtain ⟨hv, he, hl⟩ := hhof (fun d0 => rfl) .process_results
  exact ⟨m, hm, hv, he, hl, (hmit (fun d0 => rfl) .agility).1⟩

/-! ### Culture alignment score (C8) -/

/-- A fold accumulating additions equals the initial value plus the list sum. -/
lemma foldl_add_map {δ : Type} (l : List δ) (f : δ → ℚ) (init : ℚ) :
    l.foldl (fun acc d => acc + f d) init = init + (l.map f).sum := by
  induction l generalizing init with
  | nil => simp
  | cons b t ih =>
      simp only [List.foldl_cons, List.map_cons, List.sum_cons]
      rw [ih]
      ring

/-- C8 (confirmed): each framework alignment score is the unweighted sum of
correlation × (company value − industry value) over that framework's
dimensions (not an average), and the combined score is hofstede_score × 5 +
mit_score. -/
theorem culture_alignment_formula (companyH industryH correlationH : HDim → ℚ)
    (companyM industryM correlationM : MDim → ℚ) :
    hofstedeAlignScore companyH industryH correlationH =
      (hdimList.map fun d => correlationH d * (companyH d - industryH d)).sum ∧
    mitAlignScore companyM industryM correlationM =
      (mdimList.map fun d => correlationM d * (companyM d - industryM d)).sum ∧
    combinedAlignScore companyH industryH correlationH companyM industryM correlationM =
      hofstedeAlignScore companyH industryH correlationH * 5 +
        mitAlignScore companyM industryM correlationM := by
  refine ⟨?_, ?_, rfl⟩
  · unfold hofstedeAlignScore
    rw [foldl_add_map]
    ring
  · unfold mitAlignScore
    rw [foldl_add_map]
    ring

/-! ### Correlation engine theorems (C4, C6) -/

/-- Points joined for a Hofstede dimension and a metric. -/
def hofPoints (culture_data : List CultureEntry) (performance_data : List PerfEntry)
    (d : HDim) (metric : PMetric) : List (ℚ × ℚ) :=
  joinPoints (validCompanies culture_data performance_data) (fun c => c.hofstede d) metric

/-- Points joined for an MIT dimension and a metric. -/
def mitPoints (culture_data : List CultureEntry) (performance_data : List PerfEntry)
    (d : MDim) (metric : PMetric) : List (ℚ × ℚ) :=
  joinPoints (validCompanies culture_data performance_data) (fun c => c.mit d) metric

/-- Joined points are never more numerous than the joined companies. -/
lemma joinPoints_length_le (valid : List (CultureEntry × PerfEntry))
    (dimVal : CultureEntry → Option ℚ) (metric : PMetric) :
    (joinPoints valid dimVal metric).length ≤ valid.length :=
  List.length_filterMap_le _ _

/-- C4 (confirmed): a (dimension, metric) entry exists in the correlation
results iff at least 5 joined companies have non-null values for both the
dimension and the metric; every present entry has sample_size ≥ 5 and its
significant flag equals (p < 0.05) for the p-value computed on those points.
Stated for both frameworks. -/
theorem correlation_threshold_spec (oracle : PearsonOracle)
    (culture_data : List CultureEntry) (performance_data : List PerfEntry)
    (dh : HDim) (dm : MDim) (metric : PMetric) :
    (((calculate_correlation oracle culture_data performance_data).hofstede dh metric).isSome ↔
      5 ≤ (hofPoints culture_data performance_data dh metric).length) ∧
    (∀ e, (calculate_correlation oracle culture_data performance_data).hofstede dh metric =
        some e →
      5 ≤ e.sample_size ∧
      e.significant = decide
        ((oracle ((hofPoints culture_data performance_data dh metric).map Prod.fst)
            ((hofPoints culture_data performance_data dh metric).map Prod.snd)).2 < 1/20)) ∧
    (((calculate_correlation oracle culture_data performance_data).mit dm metric).isSome ↔
      5 ≤ (mitPoints culture_data performance_data dm metric).length) ∧
    (∀ e, (calculate_correlation oracle culture_data performance_data).mit dm metric = some e →
      5 ≤ e.sample_size ∧
      e.significant = decide
        ((oracle ((mitPoints culture_data performance_data dm metric).map Prod.fst)
            ((mitPoints culture_data performance_data dm metric).map Prod.snd)).2 < 1/20)) := by
  unfold calculate_correlation
  dsimp only
  by_cases h5 : (validCompanies culture_data performance_data).length < 5
  · rw [if_pos h5]
    have hlh : ¬ 5 ≤ (hofPoints culture_data performance_data dh metric).length := by
      have := joinPoints_length_le (validCompanies culture_data performance_data)
        (fun c => c.hofstede dh) metric
      unfold hofPoints
      omega
    have hlm : ¬ 5 ≤ (mitPoints culture_data performance_data dm metric).length := by
      have := joinPoints_length_le (validCompanies culture_data performance_data)
        (fun c => c.mit dm) metric
      unfold mitPoints
      omega
    refine ⟨by simpa using hlh, ?_, by simpa using hlm, ?_⟩
    · intro e he
      cases he
    · intro e he
      cases he
  · rw [if_neg h5]
    dsimp only
    constructor
    · unfold hofPoints
      split
      · simpa
      · next hlt =>
          simp only [Option.isSome_none, Bool.false_eq_true, false_iff]
          omega
    constructor
    · intro e he
      unfold hofPoints
      revert he
      split
      · next hge =>
          intro he
          obtain rfl := (Option.some.injEq _ _).mp he
          exact ⟨hge, rfl⟩
      · intro he
        cases he
    constructor
    · unfold mitPoints
      split
      · simpa
      · next hlt =>
          simp only [Option.isSome_none, Bool.false_eq_true, false_iff]
          omega
    · intro e he
      unfold mitPoints
      revert he
      split
      · next hge =>
          intro he
          obtain rfl := (Option.some.injEq _ _).mp he
          exact ⟨hge, rfl⟩
      · intro he
        cases he

/-- Oracle used by the correlation examples: a constant pearsonr stub. -/
def oracleEx : PearsonOracle := fun _ _ => (0, 0)

/-- Concrete culture record: only process_results is non-null. -/
def mkCE (i : ℕ) : CultureEntry :=
  { company := i,
    hofstede := fun d => if d = .process_results then some (i : ℚ) else none,
    mit := fun _ => none }

/-- Concrete performance record: only ROE is non-null. -/
def mkPE (i : ℕ) : PerfEntry :=
  { company := i, get := fun mtr => if mtr = .roe_5y_avg then some (i : ℚ) else none }

/-- Five joined companies, non-null exactly on (process_results, roe). -/
def cultureEx : List CultureEntry := [mkCE 0, mkCE 1, mkCE 2, mkCE 3, mkCE 4]

/-- Matching five performance records. -/
def perfEx : List PerfEntry := [mkPE 0, mkPE 1, mkPE 2, mkPE 3, mkPE 4]

/-- Witness for C4 at the concrete five-company input. -/
theorem correlation_threshold_spec_witness :
    ∃ e, (calculate_correlation oracleEx cultureEx perfEx).hofstede
        .process_results .roe_5y_avg = some e ∧ 5 ≤ e.sample_size := by
  have h := correlation_threshold_spec oracleEx cultureEx perfEx
    .process_results .agility .roe_5y_avg
  have hlen : 5 ≤ (hofPoints cultureEx perfEx .process_results .roe_5y_avg).length := by
    decide
  obtain ⟨e, he⟩ := Option.isSome_iff_exists.mp (h.1.mpr hlen)
  exact ⟨e, he, (h.2.1 e he).1⟩

/-- Ascending-by-correlation comparison (for the strongest_negative list). -/
def corrLE (a b : CorrItem) : Prop := a.correlation ≤ b.correlation

/-- C6 counterexample: at the concrete five-company input the only
correlation entry is for metric roe_5y_avg, and it appears in
strongest_positive; the summary is therefore not built only from
composite_score entries. -/
theorem correlation_summary_counterexample :
    (calculate_correlation oracleEx cultureEx perfEx).strongest_positive =
      [{ dim := .inl .process_results, metric := .roe_5y_avg,
         correlation := 0, p_value := 0 }] ∧
    PMetric.roe_5y_avg ≠ PMetric.composite_score := by
  exact ⟨by decide, by decide⟩

/-- Below the overall 5-company threshold no correlation item is built. -/
lemma allCorrelations_small (oracle : PearsonOracle)
    (valid : List (CultureEntry × PerfEntry)) (h : valid.length < 5) :
    allCorrelations oracle valid = [] := by
  unfold allCorrelations
  rw [List.append_eq_nil]
  constructor
  · rw [List.flatMap_eq_nil_iff]
    intro d hd
    rw [List.filterMap_eq_nil_iff]
    intro mtr hm
    dsimp only
    rw [if_neg]
    have := joinPoints_length_le valid (fun c => c.hofstede d) mtr
    omega
  · rw [List.flatMap_eq_nil_iff]
    intro d hd
    rw [List.filterMap_eq_nil_iff]
    intro mtr hm
    dsimp only
    rw [if_neg]
    have := joinPoints_length_le valid (fun c => c.mit d) mtr
    omega

/-- In a list sorted descending by a key, fewer than k entries have a key
strictly above any member of the first k entries. -/
lemma countP_lt_of_mem_take (key : CorrItem → ℚ) (k : ℕ) (l : List CorrItem)
    (hp : l.Pairwise fun a b => key b ≤ key a) :
    ∀ a ∈ l.take k, (l.countP fun x => decide (key a < key x)) < k := by
  induction l generalizing k with
  | nil =>
      intro a ha
      simp at ha
  | cons b t ih =>
      intro a ha
      cases k with
      | zero => simp at ha
      | succ k2 =>
          rw [List.take_succ_cons] at ha
          rw [List.countP_cons]
          obtain ⟨hb, hpt⟩ := List.pairwise_cons.mp hp
          rcases List.mem_cons.mp ha with rfl | ha2
          · have hz : (t.countP fun x => decide (key a < key x)) = 0 := by
              rw [List.countP_eq_zero]
              intro x hx
              simp only [decide_eq_true_eq, not_lt]
              exact hb x hx
            have hself : (decide (key a < key a)) = false := by simp
            rw [hz, hself]
            simp
          · have h1 := ih k2 hpt a ha2
            have h2 : (if (decide (key a < key b)) = true then 1 else 0) ≤ 1 := by
              split <;> omega
            omega

/-- Taking from a reversed list is reversing a drop from the end. -/
lemma reverse_take_eq {α : Type} (l : List α) (k : ℕ) :
    l.reverse.take k = (l.drop (l.length - k)).reverse := by
  induction l with
  | nil => simp
  | cons b t ih =>
      by_cases hk : k ≤ t.length
      · rw [List.reverse_cons, List.take_append_of_le_length (by simpa using hk), ih]
        have harith : (b :: t).length - k = (t.length - k) + 1 := by
          simp
          omega
        rw [harith, List.drop_succ_cons]
      · have hlen : (b :: t).reverse.length ≤ k := by
          simp
          omega
        rw [List.take_of_length_le hlen]
        have hz : (b :: t).length - k = 0 := by
          simp
          omega
        rw [hz, List.drop_zero]

/-- C6 (amended): the summary is ranked over ALL correlation entries, for
every performance metric (not only composite_score): strongest_positive is
sorted descending by correlation, its members are correlation entries, its
length is min 5 (number of entries), and no member is exceeded by 5 or more
entries; strongest_negative is the mirror image (ascending, 5 smallest). -/
theorem correlation_summary_spec (oracle : PearsonOracle)
    (culture_data : List CultureEntry) (performance_data : List PerfEntry) :
    List.Sorted corrGE
      (calculate_correlation oracle culture_data performance_data).strongest_positive ∧
    (calculate_correlation oracle culture_data performance_data).strongest_positive.length =
      min 5 (allCorrelations oracle (validCompanies culture_data performance_data)).length ∧
    (∀ e ∈ (calculate_correlation oracle culture_data performance_data).strongest_positive,
      e ∈ allCorrelations oracle (validCompanies culture_data performance_data)) ∧
    (∀ a ∈ (calculate_correlation oracle culture_data performance_data).strongest_positive,
      ((allCorrelations oracle (validCompanies culture_data performance_data)).countP
        fun x => decide (a.correlation < x.correlation)) < 5) ∧
    List.Sorted corrLE
      (calculate_correlation oracle culture_data performance_data).strongest_negative ∧
    (calculate_correlation oracle culture_data performance_data).strongest_negative.length =
      min 5 (allCorrelations oracle (validCompanies culture_data performance_data)).length ∧
    (∀ e ∈ (calculate_correlation oracle culture_data performance_data).strongest_negative,
      e ∈ allCorrelations oracle (validCompanies culture_data performance_data)) ∧
    (∀ a ∈ (calculate_correlation oracle culture_data performance_data).strongest_negative,
      ((allCorrelations oracle (validCompanies culture_data performance_data)).countP
        fun x => decide (x.correlation < a.correlation)) < 5) := by
  unfold calculate_correlation
  dsimp only
  by_cases h5 : (validCompanies culture_data performance_data).length < 5
  · rw [if_pos h5]
    have hall := allCorrelations_small oracle _ h5
    rw [hall]
    refine ⟨List.sorted_nil, by simp, ?_, ?_, List.sorted_nil, by simp, ?_, ?_⟩ <;>
      · intro a ha
        simp at ha
  · rw [if_neg h5]
    dsimp only
    by_cases hemp : (allCorrelations oracle (validCompanies culture_data performance_data)).isEmpty
    · have hall : allCorrelations oracle (validCompanies culture_data performance_data) = [] :=
        List.isEmpty_iff.mp hemp
      rw [hall]
      refine ⟨List.sorted_nil, by simp, ?_, ?_, List.sorted_nil, by simp, ?_, ?_⟩ <;>
        · intro a ha
          simp at ha
    · have hemp2 : (allCorrelations oracle
          (validCompanies culture_data performance_data)).isEmpty = false := by
        simpa using hemp
      rw [hemp2]
      simp only [Bool.false_eq_true, if_false]
      have hsorted : List.Sorted corrGE
          (sortedCorrs (allCorrelations oracle (validCompanies culture_data performance_data))) :=
        List.sorted_insertionSort corrGE _
      have hperm : List.Perm
          (sortedCorrs (allCorrelations oracle (validCompanies culture_data performance_data)))
          (allCorrelations oracle (validCompanies culture_data performance_data)) :=
        List.perm_insertionSort corrGE _
      have hslen := hperm.length_eq
      have hrevp : (sortedCorrs (allCorrelations oracle
          (validCompanies culture_data performance_data))).reverse.Pairwise corrLE :=
        List.pairwise_reverse.mpr hsorted
      have hrt := reverse_take_eq
        (sortedCorrs (allCorrelations oracle (validCompanies culture_data performance_data))) 5
      refine ⟨?_, ?_, ?_, ?_, ?_, ?_, ?_, ?_⟩
      · exact List.Pairwise.sublist (List.take_sublist 5 _) hsorted
      · rw [List.length_take, hslen]
      · intro e he
        exact hperm.mem_iff.mp ((List.take_sublist 5 _).subset he)
      · intro a ha
        have h1 := countP_lt_of_mem_take (fun x => x.correlation) 5 _ hsorted a ha
        rwa [hperm.countP_eq] at h1
      · rw [← hrt]
        exact List.Pairwise.sublist (List.take_sublist 5 _) hrevp
      · rw [← hrt, List.length_take, List.length_reverse, hslen]
      · intro e he
        rw [← hrt] at he
        exact hperm.mem_iff.mp (List.mem_reverse.mp ((List.take_sublist 5 _).subset he))
      · intro a ha
        rw [← hrt] at ha
        have hrevp2 : (sortedCorrs (allCorrelations oracle
            (validCompanies culture_data performance_data))).reverse.Pairwise
            (fun x y => (fun z : CorrItem => -z.correlation) y ≤
              (fun z : CorrItem => -z.correlation) x) := by
          refine hrevp.imp ?_
          intro x y hxy
          simpa using hxy
        have h1 := countP_lt_of_mem_take (fun z => -z.correlation) 5 _ hrevp2 a ha
        have hfun : (fun x : CorrItem => decide (-a.correlation < -x.correlation)) =
            (fun x : CorrItem => decide (x.correlation < a.correlation)) := by
          funext x
          simp
        rw [hfun, List.countP_reverse, hperm.countP_eq] at h1
        exact h1

/-- Witness for the amended C6 theorem: the concrete roe_5y_avg entry of
strongest_positive is indeed one of the correlation entries. -/
theorem correlation_summary_spec_witness :
    ({ dim := .inl .process_results, metric := .roe_5y_avg,
       correlation := 0, p_value := 0 } : CorrItem) ∈
      allCorrelations oracleEx (validCompanies cultureEx perfEx) := by
  have h := correlation_summary_spec oracleEx cultureEx perfEx
  exact h.2.2.1 _ (by decide)

end Glassdoor
